import Mathlib

/-!
Shallow embedding of the dynamic-metadata-filtering notebook
(rag/knowledge-bases/features-examples/03-advanced-concepts/
dynamic-metadata-filtering/dynamic_metadata_filtering_kb.ipynb).

The embedded core: the pydantic models Entity and ExtractedEntities with
the remove_duplicates pre-validator, the response-scanning part of
extract_entities, construct_metadata_filter, and the request assembly of
process_query. Python-specific behaviour (truthiness of values, the
comparison of a value with the string "unknown", the possibly-failing
int() coercion) is modelled explicitly, since the compiler function is
duck-typed and its guards read exactly those operations.
-/

namespace DynMetaFilter

/-- Values occurring in the JSON-like payloads the notebook handles:
a string or an integer (the two metadata value types in play). -/
inductive PVal where
  | s (v : String)
  | i (v : Int)
deriving DecidableEq, Repr

/-- Python truthiness of a value: the empty string and 0 are falsy,
everything else is truthy. -/
def pyTruthy : PVal → Bool
  | .s v => v ≠ ""
  | .i v => v ≠ 0

/-- Python comparison x != "unknown": for a string value, string
inequality; an integer never equals a string in Python, so for an integer
the comparison is always true. -/
def neqUnknown : PVal → Bool
  | .s v => v ≠ "unknown"
  | .i _ => true

/-- Value of a list of decimal digit characters. -/
def digitsToNat (l : List Char) : Nat :=
  l.foldl (fun n c => n * 10 + (c.toNat - 48)) 0

/-- Semantics of Python int() on a string: an optional sign followed by
one or more decimal digits; anything else raises ValueError, rendered
here as none. (Python additionally strips surrounding whitespace and
allows underscores between digits; no input considered in this
development carries either.) -/
def pyIntOfString (v : String) : Option Int :=
  match v.data with
  | [] => none
  | c :: rest =>
    if c = '-' then
      if !rest.isEmpty && rest.all Char.isDigit then
        some (-(digitsToNat rest : Int))
      else none
    else if c = '+' then
      if !rest.isEmpty && rest.all Char.isDigit then
        some ((digitsToNat rest : Int))
      else none
    else
      if (c :: rest).all Char.isDigit then
        some ((digitsToNat (c :: rest) : Int))
      else none

/-- Python int(x): an int is returned unchanged; a string is parsed as a
decimal integer, and a non-numeral string raises ValueError. -/
def pyInt : PVal → Except String Int
  | .i v => .ok v
  | .s v =>
    match pyIntOfString v with
    | some n => .ok n
    | none => .error ("invalid literal for int() with base 10: " ++ v)

/-- Raw entity payload as delivered inside the tool input: a JSON object,
modelled as an association list of field name to value; a Python dict has
pairwise distinct keys. -/
abbrev RawPayload := List (String × PVal)

/-- Entity(BaseModel) with fields Publisher: Optional[str] and
Year: Optional[int]. Field values are kept as PVal because
construct_metadata_filter is duck-typed in Python and its guards operate
on the underlying values; Entity.parse (the pydantic validation) only
ever produces a string Publisher and an integer Year. -/
structure Entity where
  Publisher : Option PVal
  Year : Option PVal
deriving DecidableEq, Repr

/-- ExtractedEntities(BaseModel): the validated, deduplicated entity
sequence. -/
structure ExtractedEntities where
  entities : List Entity
deriving DecidableEq, Repr

/-- Ordering on values, totalising the comparison Python performs on the
second tuple component. Python compares tuples componentwise and raises
TypeError on an int-versus-string comparison, but inside one dict the
keys are pairwise distinct, so sorted(d.items()) never compares the value
components; any total order on values therefore yields the same sort.
Integers are placed before strings here. -/
def PVal.le : PVal → PVal → Prop
  | .i a, .i b => a ≤ b
  | .s a, .s b => a ≤ b
  | .i _, .s _ => True
  | .s _, .i _ => False

instance PVal.decLe : DecidableRel PVal.le
  | .i a, .i b => inferInstanceAs (Decidable (a ≤ b))
  | .s a, .s b => inferInstanceAs (Decidable (a ≤ b))
  | .i _, .s _ => .isTrue trivial
  | .s _, .i _ => .isFalse (fun h => h)

instance : IsTotal PVal PVal.le :=
  ⟨by intro a b; cases a <;> cases b <;> simp [PVal.le, le_total]⟩

instance : IsTrans PVal PVal.le :=
  ⟨by
    intro a b c hab hbc
    cases a <;> cases b <;> cases c <;>
      simp_all [PVal.le] <;> exact le_trans hab hbc⟩

instance : IsAntisymm PVal PVal.le :=
  ⟨by
    intro a b hab hba
    cases a <;> cases b
    · exact congrArg PVal.s (le_antisymm hab hba)
    · exact False.elim hab
    · exact False.elim hba
    · exact congrArg PVal.i (le_antisymm hab hba)⟩

/-- Ordering on (key, value) pairs as used by Python sorted(d.items()):
lexicographic with the key compared first. -/
def pairLe (a b : String × PVal) : Prop :=
  a.1 < b.1 ∨ (a.1 = b.1 ∧ PVal.le a.2 b.2)

instance : DecidableRel pairLe := fun a b => by
  unfold pairLe; infer_instance

instance : IsTotal (String × PVal) pairLe :=
  ⟨by
    intro a b
    rcases lt_trichotomy a.1 b.1 with h | h | h
    · exact Or.inl (Or.inl h)
    · rcases @IsTotal.total PVal PVal.le _ a.2 b.2 with hv | hv
      · exact Or.inl (Or.inr ⟨h, hv⟩)
      · exact Or.inr (Or.inr ⟨h.symm, hv⟩)
    · exact Or.inr (Or.inl h)⟩

instance : IsTrans (String × PVal) pairLe :=
  ⟨by
    intro a b c hab hbc
    rcases hab with h1 | ⟨e1, v1⟩
    · rcases hbc with h2 | ⟨e2, v2⟩
      · exact Or.inl (lt_trans h1 h2)
      · exact Or.inl (e2 ▸ h1)
    · rcases hbc with h2 | ⟨e2, v2⟩
      · exact Or.inl (e1 ▸ h2)
      · exact Or.inr ⟨e1.trans e2, @IsTrans.trans PVal PVal.le _ _ _ _ v1 v2⟩⟩

instance : IsAntisymm (String × PVal) pairLe :=
  ⟨by
    intro a b hab hba
    obtain ⟨a1, a2⟩ := a
    obtain ⟨b1, b2⟩ := b
    dsimp only [pairLe] at hab hba
    rcases hab with h1 | ⟨e1, v1⟩ <;> rcases hba with h2 | ⟨e2, v2⟩
    · exact absurd (lt_trans h1 h2) (lt_irrefl a1)
    · subst e2; exact absurd h1 (lt_irrefl _)
    · subst e1; exact absurd h2 (lt_irrefl _)
    · subst e1
      rw [@IsAntisymm.antisymm PVal PVal.le _ a2 b2 v1 v2]⟩

/-- tuple(sorted(entity.items())): the canonical form of a payload, its
field pairs sorted (Python Timsort is stable; so is insertion sort). -/
def canon (p : RawPayload) : RawPayload :=
  List.insertionSort pairLe p

/-- ExtractedEntities.remove_duplicates, the pre=True validator on the
entities field: it walks the raw payload list keeping a set seen of the
canonical tuples already met and a list unique_entities; a payload whose
canonical tuple is new is recorded as dict(entity_tuple), i.e. in
canonical form. The Python set is modelled as a list used only through
membership. -/
def remove_duplicates (entities : List RawPayload) : List RawPayload :=
  (entities.foldl
    (fun st entity =>
      if canon entity ∈ st.1 then st
      else (canon entity :: st.1, st.2 ++ [canon entity]))
    (([], []) : List RawPayload × List RawPayload)).2

/-- Modelled from the spec: deduplication keeping the first occurrence of
each element, as the spec words the dedup guarantee; stated only for
comparison with remove_duplicates. -/
def dedupKeepFirst (l : List RawPayload) : List RawPayload :=
  l.foldl (fun acc x => if x ∈ acc then acc else acc ++ [x]) []

/-- pydantic v1 validation of one payload against Entity. A missing
optional field defaults to None; Publisher: Optional[str] accepts a
string and coerces an int to its decimal string; Year: Optional[int]
accepts an int and coerces a numeric string via int(), anything else
raising a ValidationError. Extra fields are ignored. -/
def Entity.parse (p : RawPayload) : Except String Entity := do
  let pub : Option PVal ←
    match p.lookup "Publisher" with
    | none => pure none
    | some (.s v) => pure (some (PVal.s v))
    | some (.i n) => pure (some (PVal.s (toString n)))
  let yr : Option PVal ←
    match p.lookup "Year" with
    | none => pure none
    | some (.i n) => pure (some (PVal.i n))
    | some (.s v) =>
      match pyIntOfString v with
      | some n => pure (some (PVal.i n))
      | none => Except.error "Year: value is not a valid integer"
  return ⟨pub, yr⟩

/-- Structured input of a tool-invocation block: a JSON object. The
extraction flow distinguishes the empty object, which is falsy in Python,
from an object carrying the entities array. -/
inductive ToolInput where
  | emptyObj
  | obj (entities : List RawPayload)
deriving DecidableEq, Repr

/-- Python truthiness of the tool-input object: the empty dict is falsy,
a non-empty dict is truthy. -/
def ToolInput.truthy : ToolInput → Bool
  | .emptyObj => false
  | .obj _ => true

/-- ExtractedEntities.parse_obj: the entities list first passes through
the remove_duplicates pre-validator, then every payload is validated as an
Entity, the first failure failing the whole parse; an object without the
required entities field is a ValidationError. -/
def parse_obj (ti : ToolInput) : Except String ExtractedEntities :=
  match ti with
  | .emptyObj => .error "entities: field required"
  | .obj es => do
    let ents ← (remove_duplicates es).mapM Entity.parse
    return ⟨ents⟩

/-- Content block of the model response message: a text block, a toolUse
block carrying a tool name and a structured input, or any other kind of
block. -/
inductive ContentBlock where
  | text (t : String)
  | toolUse (name : String) (input : ToolInput)
  | other
deriving DecidableEq, Repr

/-- Condition of the scanning loop in extract_entities: the block is a
toolUse block whose name is extract_entities. -/
def isMatch : ContentBlock → Bool
  | .toolUse nm _ => nm == "extract_entities"
  | _ => false

/-- Scan of the response content blocks for the first matching toolUse
block (the for-loop with break in extract_entities). -/
def findToolUseInput : List ContentBlock → Option ToolInput
  | [] => none
  | .toolUse nm inp :: rest =>
    if nm == "extract_entities" then some inp else findToolUseInput rest
  | .text _ :: rest => findToolUseInput rest
  | .other :: rest => findToolUseInput rest

/-- extract_entities, from the point where the model response is in hand:
json_entities is the input of the first matching toolUse block, or None
when there is none; if json_entities is truthy the payload is validated
with ExtractedEntities.parse_obj (validation errors propagate), otherwise
None is returned (after printing a notice), an empty result rather than
an error. -/
def extract_entities (blocks : List ContentBlock) :
    Except String (Option ExtractedEntities) :=
  match findToolUseInput blocks with
  | none => .ok none
  | some ti =>
    if ti.truthy then (parse_obj ti).map some else .ok none

/-- Operators appearing in the filter expressions the notebook builds. -/
inductive FilterOp where
  | equals
  | greaterThanOrEquals
deriving DecidableEq, Repr

/-- Leaf predicate of the filter wire format:
an object of shape operator, then key and value. -/
structure Pred where
  op : FilterOp
  key : String
  value : PVal
deriving DecidableEq, Repr

/-- Metadata filter wire format: the andAll conjunction of predicates. -/
structure MetadataFilter where
  andAll : List Pred
deriving DecidableEq, Repr

/-- construct_metadata_filter, mirrored from the Python line by line: the
falsy checks on extracted_entities and on its entities list; use of
entities[0] only; the truthiness-and-not-"unknown" guard on each field;
the int() coercion of Year, which can raise; and the final collapse of an
empty conjunction to None. -/
def construct_metadata_filter (extracted_entities : Option ExtractedEntities) :
    Except String (Option MetadataFilter) :=
  match extracted_entities with
  | none => .ok none
  | some ex =>
    match ex.entities with
    | [] => .ok none
    | entity :: _ =>
      let l1 : List Pred :=
        match entity.Publisher with
        | some p =>
          if pyTruthy p && neqUnknown p then [⟨.equals, "Publisher", p⟩]
          else []
        | none => []
      match entity.Year with
      | some y =>
        if pyTruthy y && neqUnknown y then
          match pyInt y with
          | .ok n =>
            let l2 := l1 ++ [⟨.greaterThanOrEquals, "Year", PVal.i n⟩]
            .ok (if l2.isEmpty then none else some ⟨l2⟩)
          | .error e => .error e
        else .ok (if l1.isEmpty then none else some ⟨l1⟩)
      | none => .ok (if l1.isEmpty then none else some ⟨l1⟩)

/-- Value at the filter entry of the vector search configuration: Python
None or a metadata filter. -/
inductive JVal where
  | null
  | filt (f : MetadataFilter)
deriving DecidableEq, Repr

/-- Retrieve request assembled by process_query. The vector search
configuration is kept as the literal key-value list Python builds, so that
presence of the filter key is observable in the model. -/
structure RetrieveRequest where
  knowledgeBaseId : String
  vectorSearchConfiguration : List (String × JVal)
  queryText : String
deriving DecidableEq, Repr

/-- process_query, from the point where the model response is in hand:
extraction, then filter construction, then the retrieve call. The Python
code always builds the dict with the filter key; when the compiler
returned None the key is present with value None. -/
def process_query (kb_id text : String) (blocks : List ContentBlock) :
    Except String RetrieveRequest :=
  match extract_entities blocks with
  | .error e => .error e
  | .ok ee =>
    match construct_metadata_filter ee with
    | .error e => .error e
    | .ok mf =>
      .ok ⟨kb_id,
        [("filter", match mf with | none => JVal.null | some f => JVal.filt f)],
        text⟩

/-- Number of predicates carrying a given key in a compilation result:
zero when compilation failed or produced no filter. -/
def countKey (k : String) (r : Except String (Option MetadataFilter)) : Nat :=
  match r with
  | .ok (some f) => (f.andAll.filter (fun p => p.key == k)).length
  | _ => 0

/-! Helper lemmas about the canonical form and deduplication. -/

theorem canon_perm (p : RawPayload) : (canon p).Perm p :=
  List.perm_insertionSort pairLe p

theorem canon_sorted (p : RawPayload) : List.Sorted pairLe (canon p) :=
  List.sorted_insertionSort pairLe p

theorem canon_eq_iff (a b : RawPayload) : canon a = canon b ↔ a.Perm b := by
  constructor
  · intro h
    have h1 := canon_perm a
    have h2 := canon_perm b
    rw [h] at h1
    exact h1.symm.trans h2
  · intro h
    exact List.eq_of_perm_of_sorted
      ((canon_perm a).trans (h.trans (canon_perm b).symm))
      (canon_sorted a) (canon_sorted b)

theorem foldl_pair_snd (es : List RawPayload) :
    ∀ seen acc : List RawPayload, (∀ x : RawPayload, x ∈ seen ↔ x ∈ acc) →
      (es.foldl
        (fun st entity =>
          if canon entity ∈ st.1 then st
          else (canon entity :: st.1, st.2 ++ [canon entity]))
        (seen, acc)).2
      = es.foldl (fun a e => if canon e ∈ a then a else a ++ [canon e]) acc := by
  induction es with
  | nil => intro seen acc _; rfl
  | cons e es ih =>
    intro seen acc h
    simp only [List.foldl_cons]
    by_cases hc : canon e ∈ seen
    · rw [if_pos hc, if_pos ((h (canon e)).mp hc)]
      exact ih seen acc h
    · rw [if_neg hc, if_neg (fun hx => hc ((h (canon e)).mpr hx))]
      refine ih (canon e :: seen) (acc ++ [canon e]) ?_
      intro x
      rw [List.mem_cons, List.mem_append, List.mem_singleton, h x, or_comm]

theorem remove_duplicates_eq (es : List RawPayload) :
    remove_duplicates es = dedupKeepFirst (es.map canon) := by
  unfold remove_duplicates dedupKeepFirst
  rw [List.foldl_map]
  exact foldl_pair_snd es [] [] (fun x => Iff.rfl)

theorem mem_foldl_dedup (l : List RawPayload) :
    ∀ acc x, x ∈ l.foldl (fun a y => if y ∈ a then a else a ++ [y]) acc
      ↔ x ∈ acc ∨ x ∈ l := by
  induction l with
  | nil => intro acc x; simp
  | cons y l ih =>
    intro acc x
    simp only [List.foldl_cons]
    by_cases hy : y ∈ acc
    · rw [if_pos hy, ih acc x, List.mem_cons]
      constructor
      · rintro (h | h)
        · exact Or.inl h
        · exact Or.inr (Or.inr h)
      · rintro (h | rfl | h)
        · exact Or.inl h
        · exact Or.inl hy
        · exact Or.inr h
    · rw [if_neg hy, ih (acc ++ [y]) x, List.mem_append, List.mem_singleton,
        List.mem_cons]
      constructor
      · rintro ((h | rfl) | h)
        · exact Or.inl h
        · exact Or.inr (Or.inl rfl)
        · exact Or.inr (Or.inr h)
      · rintro (h | rfl | h)
        · exact Or.inl (Or.inl h)
        · exact Or.inl (Or.inr rfl)
        · exact Or.inr h

theorem nodup_foldl_dedup (l : List RawPayload) :
    ∀ acc : List RawPayload, acc.Nodup →
      (l.foldl (fun a y => if y ∈ a then a else a ++ [y]) acc).Nodup := by
  induction l with
  | nil => intro acc h; exact h
  | cons y l ih =>
    intro acc h
    simp only [List.foldl_cons]
    by_cases hy : y ∈ acc
    · rw [if_pos hy]; exact ih acc h
    · rw [if_neg hy]
      refine ih (acc ++ [y]) ?_
      simp [List.nodup_append, h, hy, List.disjoint_singleton]

theorem mem_remove_duplicates (es : List RawPayload) (x : RawPayload) :
    x ∈ remove_duplicates es ↔ x ∈ es.map canon := by
  rw [remove_duplicates_eq]
  unfold dedupKeepFirst
  rw [mem_foldl_dedup]
  simp

theorem nodup_remove_duplicates (es : List RawPayload) :
    (remove_duplicates es).Nodup := by
  rw [remove_duplicates_eq]
  exact nodup_foldl_dedup (es.map canon) [] List.nodup_nil

/-! Claim theorems. -/

/-- Claim C1: compiling the entity with Publisher "Rockstar Games" and
Year 2010 yields exactly the filter whose andAll list holds the Publisher
equality predicate first and the Year greaterThanOrEquals predicate
second. -/
theorem c1_end_to_end_entity_compiles :
    construct_metadata_filter
        (some ⟨[⟨some (.s "Rockstar Games"), some (.i 2010)⟩]⟩)
      = .ok (some ⟨[⟨.equals, "Publisher", .s "Rockstar Games"⟩,
                    ⟨.greaterThanOrEquals, "Year", .i 2010⟩]⟩) := rfl

/-- Claim C3: the compiler applied to None, and to an ExtractedEntities
with an empty entity sequence, returns no filter (and no error). -/
theorem c3_empty_input_law :
    construct_metadata_filter none = .ok none
    ∧ construct_metadata_filter (some ⟨[]⟩) = .ok none :=
  ⟨rfl, rfl⟩

/-- Claim C5: the compiled filter depends only on the first entity of the
sequence; replacing all later entities leaves the output unchanged. -/
theorem c5_first_entity_only (e : Entity) (r1 r2 : List Entity) :
    construct_metadata_filter (some ⟨e :: r1⟩)
      = construct_metadata_filter (some ⟨e :: r2⟩) := rfl

/-- Claim C6: the remove_duplicates validator removes structural
duplicates. Its output is the first-occurrence deduplication of the
canonical (sorted-field) forms of the input payloads; two payloads have
the same canonical form exactly when they carry the same field-value
pairs in some order; the output holds no two structurally equal payloads;
and every input payload has a structurally equal representative in the
output. -/
theorem c6_dedup_first_occurrence :
    (∀ es : List RawPayload, remove_duplicates es = dedupKeepFirst (es.map canon))
    ∧ (∀ a b : RawPayload, canon a = canon b ↔ a.Perm b)
    ∧ (∀ es : List RawPayload,
        (remove_duplicates es).Pairwise (fun a b => ¬ a.Perm b))
    ∧ (∀ es : List RawPayload, ∀ e ∈ es,
        ∃ e2 ∈ remove_duplicates es, e2.Perm e) := by
  refine ⟨remove_duplicates_eq, canon_eq_iff, ?_, ?_⟩
  · intro es
    have hnd := nodup_remove_duplicates es
    refine List.Pairwise.imp_of_mem ?_ hnd
    intro a b ha hb hne hperm
    rw [mem_remove_duplicates] at ha hb
    obtain ⟨a0, _, rfl⟩ := List.mem_map.mp ha
    obtain ⟨b0, _, rfl⟩ := List.mem_map.mp hb
    exact hne (List.eq_of_perm_of_sorted hperm (canon_sorted a0) (canon_sorted b0))
  · intro es e he
    refine ⟨canon e, ?_, canon_perm e⟩
    rw [mem_remove_duplicates]
    exact List.mem_map_of_mem canon he

/-- Witness for C6: a concrete input with a structural duplicate, checked
through the last conjunct of the theorem. -/
theorem c6_dedup_first_occurrence_witness :
    ∃ e2 ∈ remove_duplicates
        [[("Publisher", PVal.s "a"), ("Year", PVal.i 1)],
         [("Year", PVal.i 1), ("Publisher", PVal.s "a")]],
      e2.Perm [("Year", PVal.i 1), ("Publisher", PVal.s "a")] :=
  c6_dedup_first_occurrence.2.2.2
    [[("Publisher", PVal.s "a"), ("Year", PVal.i 1)],
     [("Year", PVal.i 1), ("Publisher", PVal.s "a")]]
    [("Year", PVal.i 1), ("Publisher", PVal.s "a")] (by simp)

/-- Claim C2 counterexample: an entity whose Publisher is the present
empty string, a value different from "unknown", compiles to no filter at
all; the field yields zero predicates instead of the exactly one the
claim requires, because the guard tests Python truthiness. -/
theorem c2_sentinel_counterexample :
    construct_metadata_filter (some ⟨[⟨some (.s ""), none⟩]⟩) = .ok none
    ∧ PVal.s "" ≠ PVal.s "unknown"
    ∧ countKey "Publisher"
        (construct_metadata_filter (some ⟨[⟨some (.s ""), none⟩]⟩)) ≠ 1 := by
  refine ⟨rfl, ?_, ?_⟩ <;> decide

/-- Claim C2 amended: the sentinel law with Python truthiness. For the
first entity, whenever compilation succeeds: an absent field, the
sentinel "unknown", and a present falsy value (empty string, integer 0)
produce no predicate for that field, while a present truthy string other
than "unknown" produces exactly one Publisher predicate and a present
nonzero integer exactly one Year predicate. -/
theorem c2_sentinel_law_amended (pub yr : Option PVal) (rest : List Entity)
    (r : Option MetadataFilter)
    (h : construct_metadata_filter (some ⟨⟨pub, yr⟩ :: rest⟩) = .ok r) :
    (pub = none → countKey "Publisher" (.ok r) = 0)
    ∧ (pub = some (.s "unknown") → countKey "Publisher" (.ok r) = 0)
    ∧ (pub = some (.s "") → countKey "Publisher" (.ok r) = 0)
    ∧ (∀ s : String, s ≠ "" → s ≠ "unknown" → pub = some (.s s) →
        countKey "Publisher" (.ok r) = 1)
    ∧ (yr = none → countKey "Year" (.ok r) = 0)
    ∧ (yr = some (.i 0) → countKey "Year" (.ok r) = 0)
    ∧ (∀ n : Int, n ≠ 0 → yr = some (.i n) → countKey "Year" (.ok r) = 1) := by
  refine ⟨?_, ?_, ?_, ?_, ?_, ?_, ?_⟩
  · intro hp
    subst hp
    simp [construct_metadata_filter, pyTruthy, neqUnknown, pyInt] at h
    repeat' split at h
    all_goals try injection h with h
    all_goals try subst h
    all_goals simp_all [countKey, pyTruthy, neqUnknown, pyInt, List.filter]
  · intro hp
    subst hp
    simp [construct_metadata_filter, pyTruthy, neqUnknown, pyInt] at h
    repeat' split at h
    all_goals try injection h with h
    all_goals try subst h
    all_goals simp_all [countKey, pyTruthy, neqUnknown, pyInt, List.filter]
  · intro hp
    subst hp
    simp [construct_metadata_filter, pyTruthy, neqUnknown, pyInt] at h
    repeat' split at h
    all_goals try injection h with h
    all_goals try subst h
    all_goals simp_all [countKey, pyTruthy, neqUnknown, pyInt, List.filter]
  · intro s hs1 hs2 hp
    subst hp
    simp [construct_metadata_filter, pyTruthy, neqUnknown, pyInt, hs1, hs2] at h
    repeat' split at h
    all_goals try injection h with h
    all_goals try subst h
    all_goals simp_all [countKey, pyTruthy, neqUnknown, pyInt, List.filter]
  · intro hy
    subst hy
    simp [construct_metadata_filter, pyTruthy, neqUnknown, pyInt] at h
    repeat' split at h
    all_goals try subst h
    all_goals simp_all [countKey, pyTruthy, neqUnknown, pyInt, List.filter]
  · intro hy
    subst hy
    simp [construct_metadata_filter, pyTruthy, neqUnknown, pyInt] at h
    repeat' split at h
    all_goals try subst h
    all_goals simp_all [countKey, pyTruthy, neqUnknown, pyInt, List.filter]
  · intro n hn hy
    subst hy
    simp [construct_metadata_filter, pyTruthy, neqUnknown, pyInt, hn] at h
    repeat' split at h
    all_goals try subst h
    all_goals simp_all [countKey, pyTruthy, neqUnknown, pyInt, List.filter]

/-- Witness for the amended C2: the Publisher predicate count is exactly
one for the example entity, through conjunct four of the theorem. -/
theorem c2_sentinel_law_witness :
    countKey "Publisher"
        (Except.ok (some ⟨[⟨.equals, "Publisher", .s "Rockstar Games"⟩]⟩)) = 1 :=
  (c2_sentinel_law_amended (some (.s "Rockstar Games")) none [] _ rfl).2.2.2.1
    "Rockstar Games" (by decide) (by decide) rfl

/-- Claim C4: the compiler never returns an empty conjunction; whenever
the output is a filter, its andAll list is non-empty. -/
theorem c4_no_empty_conjunction (ee : Option ExtractedEntities)
    (f : MetadataFilter)
    (h : construct_metadata_filter ee = .ok (some f)) : f.andAll ≠ [] := by
  cases ee with
  | none => exact absurd h (by simp [construct_metadata_filter])
  | some ex =>
    obtain ⟨ents⟩ := ex
    cases ents with
    | nil => exact absurd h (by simp [construct_metadata_filter])
    | cons e rest =>
      obtain ⟨pub, yr⟩ := e
      simp only [construct_metadata_filter] at h
      repeat' split at h
      all_goals try injection h with h
      all_goals try injection h with h
      all_goals try subst h
      all_goals simp_all

/-- Witness for C4: the theorem applied at a concrete compiled filter. -/
theorem c4_no_empty_conjunction_witness :
    (MetadataFilter.mk [⟨.equals, "Publisher", .s "g"⟩]).andAll ≠ [] :=
  c4_no_empty_conjunction (some ⟨[⟨some (.s "g"), none⟩]⟩)
    ⟨[⟨.equals, "Publisher", .s "g"⟩]⟩ rfl

/-- Claim C7 counterexample: on an input where the compiler yields no
filter, process_query still sends a retrieval request whose vector search
configuration carries the filter key, with a null value; the key is not
omitted. -/
theorem c7_filter_key_counterexample :
    extract_entities [ContentBlock.text "q"] = .ok none
    ∧ construct_metadata_filter none = .ok none
    ∧ process_query "kb" "q" [ContentBlock.text "q"]
        = .ok ⟨"kb", [("filter", JVal.null)], "q"⟩
    ∧ ([("filter", JVal.null)] : List (String × JVal)).map Prod.fst
        = ["filter"] :=
  ⟨rfl, rfl, rfl, rfl⟩

/-- Claim C7 amended: whenever the compiler yields no filter and the
pipeline succeeds, the retrieval request carries the filter key with a
null value — absence of a filter is represented by a null filter value
under the always-present key, not by omitting the key. -/
theorem c7_null_filter_amended (kb text : String) (blocks : List ContentBlock)
    (req : RetrieveRequest) (h : process_query kb text blocks = .ok req)
    (ee : Option ExtractedEntities) (hee : extract_entities blocks = .ok ee)
    (hmf : construct_metadata_filter ee = .ok none) :
    req.vectorSearchConfiguration = [("filter", JVal.null)] := by
  unfold process_query at h
  rw [hee] at h
  simp only [hmf] at h
  injection h with h
  rw [← h]

/-- Witness for the amended C7, at a response with no tool invocation. -/
theorem c7_null_filter_witness :
    (RetrieveRequest.mk "kb" [("filter", JVal.null)] "q").vectorSearchConfiguration
      = [("filter", JVal.null)] :=
  c7_null_filter_amended "kb" "q" [ContentBlock.text "q"] _ rfl none rfl rfl

/-- Claim C8 counterexample: the entity whose Year is the present empty
string — a value different from "unknown" that int() cannot coerce — is
silently treated as absent: compilation returns no filter and no error,
because the falsy value fails the truthiness guard before coercion. -/
theorem c8_coercion_counterexample :
    pyIntOfString "" = none
    ∧ ("" : String) ≠ "unknown"
    ∧ construct_metadata_filter (some ⟨[⟨none, some (.s "")⟩]⟩) = .ok none := by
  refine ⟨rfl, ?_, rfl⟩
  decide

/-- Claim C8 amended: for a Year value that is a present, truthy
(non-empty) string other than "unknown" and not coercible to an integer,
compilation aborts with the int() coercion error and returns no partial
filter, whatever the Publisher field holds. -/
theorem c8_coercion_error_amended (pub : Option PVal) (rest : List Entity)
    (y : String) (h1 : y ≠ "") (h2 : y ≠ "unknown")
    (h3 : pyIntOfString y = none) :
    construct_metadata_filter (some ⟨⟨pub, some (.s y)⟩ :: rest⟩)
      = .error ("invalid literal for int() with base 10: " ++ y) := by
  simp [construct_metadata_filter, pyTruthy, neqUnknown, pyInt, h1, h2, h3]

/-- Witness for the amended C8, at the non-numeric Year "abc". -/
theorem c8_coercion_error_witness :
    construct_metadata_filter (some ⟨[⟨none, some (.s "abc")⟩]⟩)
      = .error ("invalid literal for int() with base 10: " ++ "abc") :=
  c8_coercion_error_amended none [] "abc" (by decide) (by decide) (by decide)

/-- Helper for C9: scanning skips every non-matching block and stops at
the first matching toolUse block, returning its input. -/
theorem findToolUseInput_append (pre : List ContentBlock) (ti : ToolInput)
    (rest : List ContentBlock) (hpre : ∀ c ∈ pre, isMatch c = false) :
    findToolUseInput (pre ++ ContentBlock.toolUse "extract_entities" ti :: rest)
      = some ti := by
  induction pre with
  | nil => simp [findToolUseInput]
  | cons c cs ih =>
    have hc := hpre c (List.mem_cons_self c cs)
    have hcs : ∀ x ∈ cs, isMatch x = false :=
      fun x hx => hpre x (List.mem_cons_of_mem c hx)
    cases c with
    | text t => simpa [findToolUseInput] using ih hcs
    | toolUse nm inp =>
      simp only [isMatch] at hc
      simpa [findToolUseInput, hc] using ih hcs
    | other => simpa [findToolUseInput] using ih hcs

/-- Claim C9: a response without a matching toolUse block makes the
extractor return None, an explicit empty result and not an error; and
when a matching block exists, the result is computed from the first
matching block's input alone — the blocks after it never matter. -/
theorem c9_first_tool_block :
    (∀ blocks : List ContentBlock, findToolUseInput blocks = none →
      extract_entities blocks = .ok none)
    ∧ (∀ (pre : List ContentBlock) (ti : ToolInput) (rest : List ContentBlock),
        (∀ c ∈ pre, isMatch c = false) →
        extract_entities
            (pre ++ ContentBlock.toolUse "extract_entities" ti :: rest)
          = (if ti.truthy then (parse_obj ti).map some else .ok none)) := by
  constructor
  · intro blocks h
    unfold extract_entities
    rw [h]
  · intro pre ti rest hpre
    unfold extract_entities
    rw [findToolUseInput_append pre ti rest hpre]

/-- Witness for C9: a response with no toolUse block returns None; a
response whose first matching block carries an empty entities object is
resolved from that block alone, the trailing matching block ignored. -/
theorem c9_first_tool_block_witness :
    extract_entities [ContentBlock.text "q"] = .ok none
    ∧ extract_entities
        [ContentBlock.text "q",
         ContentBlock.toolUse "extract_entities" (ToolInput.obj []),
         ContentBlock.toolUse "extract_entities"
           (ToolInput.obj [[("Publisher", PVal.s "x")]])]
      = (if (ToolInput.obj ([] : List RawPayload)).truthy
          then (parse_obj (ToolInput.obj [])).map some else .ok none) :=
  ⟨c9_first_tool_block.1 [ContentBlock.text "q"] rfl,
   c9_first_tool_block.2 [ContentBlock.text "q"] (ToolInput.obj [])
     [ContentBlock.toolUse "extract_entities"
       (ToolInput.obj [[("Publisher", PVal.s "x")]])]
     (by decide)⟩

/-- Claim C10: the guards test truthiness, so a present Year 0 and a
present empty-string Publisher produce no predicate, and the entity with
Publisher "Rockstar Games" and Year 0 compiles to the filter holding only
the Publisher equality predicate. -/
theorem c10_truthiness_guards :
    (∀ (pub : Option PVal) (rest : List Entity),
      countKey "Year"
        (construct_metadata_filter (some ⟨⟨pub, some (.i 0)⟩ :: rest⟩)) = 0)
    ∧ (∀ (yr : Option PVal) (rest : List Entity),
      countKey "Publisher"
        (construct_metadata_filter (some ⟨⟨some (.s ""), yr⟩ :: rest⟩)) = 0)
    ∧ construct_metadata_filter
        (some ⟨[⟨some (.s "Rockstar Games"), some (.i 0)⟩]⟩)
      = .ok (some ⟨[⟨.equals, "Publisher", .s "Rockstar Games"⟩]⟩) := by
  refine ⟨?_, ?_, rfl⟩
  · intro pub rest
    simp only [construct_metadata_filter]
    repeat' split
    all_goals simp_all [countKey, pyTruthy, neqUnknown, List.filter]
  · intro yr rest
    simp only [construct_metadata_filter]
    repeat' split
    all_goals simp_all [countKey, pyTruthy, neqUnknown, List.filter]

end DynMetaFilter
